import Mathlib

/-!
Shallow embedding of the arrivals-aggregation core of the
`amsterdam-flight-vibe` repository.

Sources embedded here:
* `netlify/functions/arrivals.js` (the Schiphol handler, quoted in full in
  `README.md`): `getFlagEmoji`, the airport-metadata resolver
  (`fetchAirportData`, `batchFetchAirportData`, `fetchOpenFlightsData`),
  `isFlightInFuture`, the flight-response cache
  (`isFlightCacheValid` and the post-write cleanup loop), the pagination
  loop of `exports.handler`, and the handler's error responses.
* `netlify/functions/arrivals-cdg.js` (the multi-status variant): the
  landed/active/scheduled bucket concatenation, the dedup-by-flight-code
  loop with its codeshare skip, and the handler's error responses.

JavaScript conventions used throughout the embedding:
* a possibly-absent value (`undefined`/`null`) is `Option`;
* string truthiness (`!s`): `none` and `some ""` are falsy;
* number truthiness: `0` is falsy (relevant for `lastCacheUpdate` and for
  `arrival.delay || null`);
* a thrown exception in fallible code is `Option.none`/an explicit outcome
  constructor;
* `Date.now()` instants are `Nat` milliseconds; `Date` comparison is on
  the underlying millisecond value.
-/

set_option autoImplicit false

namespace AmsFlightVibe

/-- Truthiness of a JS string-or-undefined value: `undefined`, `null` and
`""` are falsy. -/
def truthyStr : Option String → Bool
  | none => false
  | some s => s != ""

/-- `a || b` on JS string-or-undefined values. -/
def jsOrStr (a b : Option String) : Option String :=
  if truthyStr a then a else b

/-! ## JSON bodies and the handlers' error responses (`arrivals.js` handler
tail and `arrivals-cdg.js` handler head) -/

/-- JSON values, as produced by `JSON.stringify` of the object literals in
the source. -/
inductive Json where
  | null : Json
  | bool (b : Bool) : Json
  | num (n : Int) : Json
  | str (s : String) : Json
  | arr (xs : List Json) : Json
  | obj (fields : List (String × Json)) : Json

/-- Look up a field of a JSON object (first binding wins, as in a JS object
literal without duplicate keys). -/
def jsonField (j : Json) (key : String) : Option Json :=
  match j with
  | Json.obj fields => (fields.find? (fun p => p.1 == key)).map (·.2)
  | _ => none

/-- Whether a JSON body carries a `flights` field that is an empty array. -/
def hasEmptyFlightsArray (j : Json) : Bool :=
  match jsonField j "flights" with
  | some (Json.arr []) => true
  | _ => false

/-- An HTTP response as returned by a Netlify handler: status code plus the
JSON body passed to `JSON.stringify`. -/
structure HttpResponse where
  statusCode : Nat
  body : Json

/-- Outcome of the guarded part of a handler (steps after the credential
check): either a successful response body, or a thrown error whose
`error.message` string reaches the `catch` block. -/
inductive HandlerOutcome where
  | ok (body : Json) : HandlerOutcome
  | err (message : String) : HandlerOutcome

/-- The `arrivals.js` handler's branch structure around failure, from
`exports.handler`: missing `SCHIPHOL_APP_ID`/`SCHIPHOL_APP_KEY` returns a
500 with body `{ message: "Server configuration error." }`; a throw from
the `try` block is caught and returns a 500 with body
`{ message, error, flights: [] }`; otherwise the computed 200 body is
returned. -/
def arrivalsHandlerResponse (appId appKey : Option String)
    (outcome : HandlerOutcome) : HttpResponse :=
  if !truthyStr appId || !truthyStr appKey then
    { statusCode := 500,
      body := Json.obj [("message", Json.str "Server configuration error.")] }
  else
    match outcome with
    | HandlerOutcome.ok body => { statusCode := 200, body := body }
    | HandlerOutcome.err msg =>
      { statusCode := 500,
        body := Json.obj
          [("message", Json.str "Internal Server Error."),
           ("error", Json.str msg),
           ("flights", Json.arr [])] }

/-- The `arrivals-cdg.js` handler's branch structure around failure: a fresh
cache hit short-circuits to 200 before the key check; a missing
`AVIATIONSTACK_API_KEY` returns a 500 with body
`{ error: "No API key configured" }`; a throw from the `try` block returns a
500 with body `{ error, flights: [] }`. -/
def cdgHandlerResponse (cacheHit : Option Json) (apiKey : Option String)
    (outcome : HandlerOutcome) : HttpResponse :=
  match cacheHit with
  | some body => { statusCode := 200, body := body }
  | none =>
    if !truthyStr apiKey then
      { statusCode := 500,
        body := Json.obj [("error", Json.str "No API key configured")] }
    else
      match outcome with
      | HandlerOutcome.ok body => { statusCode := 200, body := body }
      | HandlerOutcome.err msg =>
        { statusCode := 500,
          body := Json.obj
            [("error", Json.str msg), ("flights", Json.arr [])] }

/-! ## The multi-status variant's raw flights and dedup loop
(`arrivals-cdg.js`, lines 44–90) -/

/-- The fields of a raw aviationstack flight record read by
`arrivals-cdg.js`. Absent optional-chaining results are `none`. -/
structure RawFlight where
  flightIata : Option String
  flightIcao : Option String
  /-- Truthiness of `f.flight?.codeshared`. -/
  codeshared : Bool
  arrivalScheduled : Option String
  arrivalEstimated : Option String
  airlineName : Option String
  airlineIata : Option String
  airlineIcao : Option String
  departureAirport : Option String
  departureIata : Option String
  aircraftIata : Option String
  aircraftIcao : Option String
  arrivalTerminal : Option String
  arrivalGate : Option String
  arrivalDelay : Option Int
  flightStatus : Option String
  deriving Repr, DecidableEq

/-- The combined raw list: `[...landed, ...active, ...scheduled]`. -/
def combineBuckets (landed active scheduled : List RawFlight) : List RawFlight :=
  landed ++ active ++ scheduled

/-- The string dedup key of a flight when it has one:
`f.flight?.iata || f.flight?.icao`, with `Math.random().toString()` (a fresh
key) used only when both are falsy. -/
def flightKeyStr (f : RawFlight) : Option String :=
  if truthyStr f.flightIata then f.flightIata
  else if truthyStr f.flightIcao then f.flightIcao
  else none

/-- A dedup key: either the iata/icao string, or a fresh
`Math.random().toString()` key. Fresh keys are modelled as a counter-indexed
supply, distinct from each other and from every iata/icao string (a
`Math.random().toString()` result starts with `"0."` and collides with
nothing in practice). -/
inductive DedupKey where
  | str (s : String) : DedupKey
  | fresh (n : Nat) : DedupKey
  deriving Repr, DecidableEq

/-- The dedup loop of `arrivals-cdg.js`: walk `allRaw`, skip a flight whose
key was already seen, record the key, then skip codeshares. Returns the raw
flights that get pushed, together with the final `seen` set and fresh-key
counter. The pushed records of the source are `normalizeCdgFlight` of
exactly these flights, in this order. -/
def dedupGo : List RawFlight → List DedupKey → Nat →
    (List RawFlight × List DedupKey × Nat)
  | [], seen, freshCtr => ([], seen, freshCtr)
  | f :: rest, seen, freshCtr =>
    let keyAndCtr : DedupKey × Nat :=
      match flightKeyStr f with
      | some s => (DedupKey.str s, freshCtr)
      | none => (DedupKey.fresh freshCtr, freshCtr + 1)
    if keyAndCtr.1 ∈ seen then
      dedupGo rest seen keyAndCtr.2
    else
      let seen' := keyAndCtr.1 :: seen
      if f.codeshared then
        dedupGo rest seen' keyAndCtr.2
      else
        let out := dedupGo rest seen' keyAndCtr.2
        (f :: out.1, out.2)

/-- The raw flights the dedup loop pushes, in order. -/
def dedupSelect (raws : List RawFlight) : List RawFlight :=
  (dedupGo raws [] 0).1

/-- A normalized flight record as pushed by `arrivals-cdg.js`. -/
structure CdgFlightRec where
  flightName : String
  scheduleDateTime : String
  scheduleTime : String
  airlineName : String
  airlineIata : String
  airlineIcao : String
  departureAirport : String
  departureIata : String
  departureCity : String
  aircraftIata : String
  aircraftIcao : String
  arrivalTerminal : String
  arrivalGate : String
  arrivalDelay : Option Int
  status : String
  deriving Repr, DecidableEq

/-- `s.slice(a, b)` on a JS string (for the in-range uses here). -/
def jsSlice (s : String) (a b : Nat) : String :=
  String.mk ((s.data.drop a).take (b - a))

/-- `x || ''` on a string-or-undefined value. -/
def strOrEmpty (a : Option String) : String :=
  (jsOrStr a (some "")).getD ""

/-- The record `arrivals-cdg.js` pushes for one raw flight (lines 61–86):
`arrTime = f.arrival?.scheduled || f.arrival?.estimated || ''`, then each
field with its `|| ''` default; `delay || null` maps a falsy delay (absent
or `0`) to `null`; `status = f.flight_status || 'scheduled'`. -/
def normalizeCdgFlight (f : RawFlight) : CdgFlightRec :=
  let arrTime := strOrEmpty (jsOrStr f.arrivalScheduled f.arrivalEstimated)
  { flightName := strOrEmpty (jsOrStr f.flightIata f.flightIcao),
    scheduleDateTime := arrTime,
    scheduleTime := if arrTime != "" then jsSlice arrTime 11 16 else "",
    airlineName := strOrEmpty f.airlineName,
    airlineIata := strOrEmpty f.airlineIata,
    airlineIcao := strOrEmpty f.airlineIcao,
    departureAirport := strOrEmpty f.departureAirport,
    departureIata := strOrEmpty f.departureIata,
    departureCity := strOrEmpty f.departureAirport,
    aircraftIata := strOrEmpty f.aircraftIata,
    aircraftIcao := strOrEmpty f.aircraftIcao,
    arrivalTerminal := strOrEmpty f.arrivalTerminal,
    arrivalGate := strOrEmpty f.arrivalGate,
    arrivalDelay := match f.arrivalDelay with
      | some d => if d == 0 then none else some d
      | none => none,
    status := (if truthyStr f.flightStatus then f.flightStatus
               else some "scheduled").getD "scheduled" }

/-- The `flights` list built by the dedup loop (before the final sort by
`scheduleDateTime`). -/
def cdgFlights (raws : List RawFlight) : List CdgFlightRec :=
  (dedupSelect raws).map normalizeCdgFlight

/-! ## `getFlagEmoji` (`arrivals.js`, lines 53–64)

JS strings are modelled here as lists of numeric character codes. For the
ASCII inputs relevant to this function (ISO-2 country codes), UTF-16 code
units and Unicode codepoints coincide, so `charCodeAt i` is list indexing.
The result string is recorded as its list of codepoints (in a real JS
engine each astral codepoint is stored as a surrogate pair; the claims are
phrased in codepoints). -/

/-- Truthiness of a JS string-or-undefined value in code-list form. -/
def truthyJsStr : Option (List Nat) → Bool
  | none => false
  | some s => !s.isEmpty

/-- `s.charCodeAt(i)`: the character code, or `none` for the `NaN` returned
out of range. -/
def jsCharCodeAt (s : List Nat) (i : Nat) : Option Nat :=
  s.get? i

/-- `toUpperCase` on one character code. Only the ASCII range matters for
the country codes at issue; other codes are returned unchanged. -/
def jsToUpperCode (c : Nat) : Nat :=
  if 97 ≤ c ∧ c ≤ 122 then c - 32 else c

/-- `String.fromCodePoint(x)` where `x` is a number-or-`NaN` (`none`):
throws a `RangeError` (`none` result) on `NaN` or an out-of-range value,
otherwise yields the one-codepoint string. -/
def jsFromCodePoint (x : Option Int) : Option (List Nat) :=
  match x with
  | none => none
  | some v => if 0 ≤ v ∧ v ≤ 0x10FFFF then some [v.toNat] else none

/-- `getFlagEmoji` from `arrivals.js`: a falsy `countryCode` yields `""`;
otherwise the code is uppercased and each of its first two character codes
is mapped to `0x1F1E6 + code - 65`. A `none` result models the thrown
`RangeError` when `String.fromCodePoint` receives `NaN` (e.g. from
`charCodeAt(1)` on a one-character string). -/
def getFlagEmoji (countryCode : Option (List Nat)) : Option (List Nat) :=
  if !truthyJsStr countryCode then
    some []
  else
    let code := (countryCode.getD []).map jsToUpperCode
    let first := jsFromCodePoint
      ((jsCharCodeAt code 0).map (fun c => 0x1F1E6 + (c : Int) - 65))
    let second := jsFromCodePoint
      ((jsCharCodeAt code 1).map (fun c => 0x1F1E6 + (c : Int) - 65))
    match first, second with
    | some a, some b => some (a ++ b)
    | _, _ => none

/-! ## Airport metadata resolver (`arrivals.js`, lines 36–50 and 115–216)

The in-memory `Map` objects are modelled as association lists with JS `Map`
semantics: `set` overwrites in place or appends, `get` returns the first
(unique) binding, iteration is in insertion order. -/

/-- `Map.prototype.has`. -/
def jsMapHas {α : Type} (m : List (String × α)) (k : String) : Bool :=
  m.any (fun p => p.1 == k)

/-- `Map.prototype.get` (`none` for `undefined`). -/
def jsMapGet {α : Type} (m : List (String × α)) (k : String) : Option α :=
  (m.find? (fun p => p.1 == k)).map (·.2)

/-- `Map.prototype.set`: overwrite an existing binding in place, else
append. -/
def jsMapSet {α : Type} (m : List (String × α)) (k : String) (v : α) :
    List (String × α) :=
  if jsMapHas m k then m.map (fun p => if p.1 == k then (k, v) else p)
  else m ++ [(k, v)]

/-- `Map.prototype.size` (bindings built through `jsMapSet` have unique
keys, so the length is the size). -/
def jsMapSize {α : Type} (m : List (String × α)) : Nat :=
  m.length

/-- `MAX_API_CALLS = 90` (`arrivals.js`, line 50). -/
def MAX_API_CALLS : Nat := 90

/-- `CACHE_DURATION = 30 * 24 * 60 * 60 * 1000` (30 days, line 39). -/
def CACHE_DURATION : Nat := 30 * 24 * 60 * 60 * 1000

/-- Airport metadata as stored in `airportCache`. Entries written by the
primary API carry `source = "aviationstack"`; entries written by the
OpenFlights fallback have no `source` field. -/
structure AirportMeta where
  city : String
  country : String
  name : String
  source : Option String
  deriving Repr, DecidableEq

/-- The resolver's module-level mutable state: `airportCache`,
`lastCacheUpdate` (`null` initially) and `apiCallsCount`. -/
structure ResolverState where
  airportCache : List (String × AirportMeta)
  lastCacheUpdate : Option Nat
  apiCallsCount : Nat
  deriving Repr, DecidableEq

/-- Truthiness of `lastCacheUpdate`: `null` and `0` are falsy. -/
def lcuTruthy : Option Nat → Bool
  | none => false
  | some t => t != 0

/-- `split` on a one-character separator over a character list (JS
`String.prototype.split` with the single-character separators the source
uses: `','` and `'\n'`; also used for the date/time grammar). Structural
recursion so that concrete instances reduce. -/
def splitOnCharList (sep : Char) : List Char → List (List Char)
  | [] => [[]]
  | x :: xs =>
    match splitOnCharList sep xs with
    | [] => [[x]]
    | cur :: rest =>
      if x = sep then [] :: cur :: rest else (x :: cur) :: rest

/-- `s.split(sep)` for a one-character separator. -/
def jsSplit (s : String) (sep : Char) : List String :=
  (splitOnCharList sep s.data).map String.mk

/-- One parsed line of the OpenFlights `airports.dat` CSV. -/
structure OpenFlightsRow where
  iata : String
  city : String
  country : String
  name : String
  deriving Repr, DecidableEq

/-- `.replace(/"/g, '')`: drop every double-quote character. -/
def stripQuotes (s : String) : String :=
  String.mk (s.data.filter (fun c => c ≠ '"'))

/-- One `line.split(',')` record: requires at least 5 fields, takes
`parts[4]` as iata, `parts[2]` as city, `parts[3]` as country and
`parts[1]` as name, each with quotes stripped (the naive comma split of the
source, which does not treat commas inside quoted fields specially). -/
def parseOpenFlightsLine (line : String) : Option OpenFlightsRow :=
  let parts := jsSplit line ','
  if 5 ≤ parts.length then
    some { iata := stripQuotes (parts.getD 4 ""),
           city := stripQuotes (parts.getD 2 ""),
           country := stripQuotes (parts.getD 3 ""),
           name := stripQuotes (parts.getD 1 "") }
  else none

/-- `response.data.split('\n').map(...).filter(a => a && a.iata.length === 3)`. -/
def parseOpenFlightsData (csv : String) : List OpenFlightsRow :=
  ((jsSplit csv '\n').filterMap parseOpenFlightsLine).filter
    (fun a => a.iata.length == 3)

/-- The cache value written for one OpenFlights row (no `source` field). -/
def openFlightsMeta (a : OpenFlightsRow) : AirportMeta :=
  { city := a.city, country := a.country, name := a.name, source := none }

/-- The "cache empty or expired" guard of `fetchOpenFlightsData`:
`airportCache.size === 0 || !lastCacheUpdate ||
(Date.now() - lastCacheUpdate) >= CACHE_DURATION`. -/
def openFlightsRefreshDue (st : ResolverState) (now : Nat) : Bool :=
  jsMapSize st.airportCache == 0 || !lcuTruthy st.lastCacheUpdate ||
    (match st.lastCacheUpdate with
     | some t => decide (CACHE_DURATION ≤ now - t)
     | none => true)

/-- `fetchOpenFlightsData`: when the cache is empty or expired, fetch the
OpenFlights dataset (`fetched = none` models a failed `axios.get`, whose
error is caught and leaves the state unchanged), write every parsed row
into `airportCache` and set `lastCacheUpdate`. -/
def fetchOpenFlightsData (st : ResolverState) (now : Nat)
    (fetched : Option String) : ResolverState :=
  if openFlightsRefreshDue st now then
    match fetched with
    | none => st
    | some csv =>
      { st with
        airportCache := (parseOpenFlightsData csv).foldl
          (fun c a => jsMapSet c a.iata (openFlightsMeta a)) st.airportCache,
        lastCacheUpdate := some now }
  else st

/-- Outcome of one primary aviationstack `/airports` call. -/
inductive ApiOutcome where
  /-- `axios.get` rejected (network or HTTP error). -/
  | throw : ApiOutcome
  /-- Resolved, but `response.data.data` is absent or empty. -/
  | noData : ApiOutcome
  /-- Resolved with a first element carrying `city_name`, `country_iso2`
  and `airport_name`. -/
  | success (city country name : String) : ApiOutcome
  deriving Repr, DecidableEq

/-- `fetchAirportData(iataCode)`: cached-and-fresh short-circuit; bulk
fallback when `apiCallsCount >= MAX_API_CALLS`; otherwise one primary API
call (incrementing the counter on any non-thrown response), caching a
successful result and initialising `lastCacheUpdate` if it was falsy; a
thrown call falls back to the bulk load. Returns the JS return value and
the updated module state. -/
def fetchAirportData (st : ResolverState) (now : Nat) (api : ApiOutcome)
    (fallbackFetch : Option String) (iataCode : String) :
    Option AirportMeta × ResolverState :=
  if jsMapHas st.airportCache iataCode &&
      (lcuTruthy st.lastCacheUpdate &&
        decide (now - st.lastCacheUpdate.getD 0 < CACHE_DURATION)) then
    (jsMapGet st.airportCache iataCode, st)
  else if MAX_API_CALLS ≤ st.apiCallsCount then
    let st2 := fetchOpenFlightsData st now fallbackFetch
    (jsMapGet st2.airportCache iataCode, st2)
  else
    match api with
    | ApiOutcome.throw =>
      let st2 := fetchOpenFlightsData st now fallbackFetch
      (jsMapGet st2.airportCache iataCode, st2)
    | ApiOutcome.noData =>
      (none, { st with apiCallsCount := st.apiCallsCount + 1 })
    | ApiOutcome.success city country name =>
      let result : AirportMeta :=
        { city := city, country := country, name := name,
          source := some "aviationstack" }
      (some result,
       { st with
         apiCallsCount := st.apiCallsCount + 1,
         airportCache := jsMapSet st.airportCache iataCode result,
         lastCacheUpdate :=
           if lcuTruthy st.lastCacheUpdate then st.lastCacheUpdate
           else some now })

/-- `batchFetchAirportData(iataCodes)`: drop already-cached codes; if the
remaining codes would exceed the budget, run one bulk fallback; otherwise
resolve them sequentially through `fetchAirportData` (the `api` oracle
gives the outcome of the i-th primary call of the batch). -/
def batchFetchAirportData (iataCodes : List String) (st : ResolverState)
    (now : Nat) (api : Nat → ApiOutcome) (fallbackFetch : Option String) :
    ResolverState :=
  let uncachedCodes := iataCodes.filter (fun code => !jsMapHas st.airportCache code)
  if uncachedCodes.isEmpty then st
  else if MAX_API_CALLS < st.apiCallsCount + uncachedCodes.length then
    fetchOpenFlightsData st now fallbackFetch
  else
    (uncachedCodes.foldl
      (fun (acc : ResolverState × Nat) code =>
        ((fetchAirportData acc.1 now (api acc.2) fallbackFetch code).2,
         acc.2 + 1))
      (st, 0)).1

/-! ## `isFlightInFuture` (`arrivals.js`, lines 359–369)

`new Date(`...`${scheduleDate}T${scheduleTime}`...`)` is modelled for the
grammar the Schiphol feed uses: a `YYYY-MM-DD` date and an `HH:MM` or
`HH:MM:SS` time, interpreted as a local-time instant in milliseconds
(days via the standard civil-from-days calendar algorithm). A combination
outside this grammar parses to an Invalid Date, whose `>=` comparison is
false — modelled by `none`. -/

/-- ASCII decimal digit test. -/
def isDigitChar (c : Char) : Bool :=
  decide ('0' ≤ c ∧ c ≤ '9')

/-- Value of a digit string. -/
def digitsVal (l : List Char) : Nat :=
  l.foldl (fun a c => a * 10 + (c.toNat - 48)) 0

/-- Gregorian leap year. -/
def isLeapYear (y : Nat) : Bool :=
  (y % 4 == 0 && y % 100 != 0) || y % 400 == 0

/-- Days in a month of a given year. -/
def daysInMonth (y m : Nat) : Nat :=
  if m == 2 then (if isLeapYear y then 29 else 28)
  else if m == 4 || m == 6 || m == 9 || m == 11 then 30
  else 31

/-- Days from 1970-01-01 to the civil date `y-m-d` (years 0–9999,
`1 ≤ m ≤ 12`). The standard era-based civil calendar computation, shifted
by 400 years so every intermediate value is a `Nat`. -/
def daysFromCivil (y m d : Nat) : Int :=
  let yShift := if m ≤ 2 then y + 399 else y + 400
  let era := yShift / 400
  let yoe := yShift % 400
  let mp := (m + 9) % 12
  let doy := (153 * mp + 2) / 5 + d - 1
  let doe := yoe * 365 + yoe / 4 - yoe / 100 + doy
  (era : Int) * 146097 + (doe : Int) - 719468 - 146097

/-- Milliseconds from the epoch for a civil date-time. -/
def epochMillis (y m d h mi s : Nat) : Int :=
  daysFromCivil y m d * 86400000 +
    ((h : Int) * 3600000 + (mi : Int) * 60000 + (s : Int) * 1000)

/-- Parse a `YYYY-MM-DD` schedule date, validating month and day. -/
def parseYmd (s : String) : Option (Nat × Nat × Nat) :=
  match jsSplit s '-' with
  | [ys, ms, ds] =>
    if ys.length == 4 && ms.length == 2 && ds.length == 2 &&
        (ys.data ++ ms.data ++ ds.data).all isDigitChar then
      let y := digitsVal ys.data
      let m := digitsVal ms.data
      let d := digitsVal ds.data
      if 1 ≤ m && m ≤ 12 && 1 ≤ d && d ≤ daysInMonth y m then
        some (y, m, d)
      else none
    else none
  | _ => none

/-- Parse an `HH:MM` or `HH:MM:SS` schedule time. -/
def parseHms (s : String) : Option (Nat × Nat × Nat) :=
  match jsSplit s ':' with
  | [hs, ms] =>
    if hs.length == 2 && ms.length == 2 &&
        (hs.data ++ ms.data).all isDigitChar then
      let h := digitsVal hs.data
      let mi := digitsVal ms.data
      if h ≤ 23 && mi ≤ 59 then some (h, mi, 0) else none
    else none
  | [hs, ms, ss] =>
    if hs.length == 2 && ms.length == 2 && ss.length == 2 &&
        (hs.data ++ ms.data ++ ss.data).all isDigitChar then
      let h := digitsVal hs.data
      let mi := digitsVal ms.data
      let sec := digitsVal ss.data
      if h ≤ 23 && mi ≤ 59 && sec ≤ 59 then some (h, mi, sec) else none
    else none
  | _ => none

/-- The instant denoted by `new Date(`...`${d}T${t}`...`)` for the modelled
grammar, or `none` for an Invalid Date. -/
def parseDateTime (d t : String) : Option Int :=
  match parseYmd d, parseHms t with
  | some (y, m, day), some (h, mi, s) => some (epochMillis y m day h mi s)
  | _, _ => none

/-- The two fields of a raw Schiphol flight record that `isFlightInFuture`
and the pagination loop read. -/
structure SchipholFlight where
  scheduleDate : Option String
  scheduleTime : Option String
  deriving Repr, DecidableEq

/-- `isFlightInFuture(flight, currentTime)`: false when either schedule
field is falsy; otherwise compare the parsed schedule instant against
`currentTime` minus the 15-minute delay buffer (an Invalid Date compares
false). -/
def isFlightInFuture (flight : SchipholFlight) (currentTimeMs : Int) : Bool :=
  if !truthyStr flight.scheduleDate || !truthyStr flight.scheduleTime then
    false
  else
    match parseDateTime (flight.scheduleDate.getD "")
        (flight.scheduleTime.getD "") with
    | some ms => decide (currentTimeMs - 15 * 60 * 1000 ≤ ms)
    | none => false

/-! ## The pagination loop (`arrivals.js`, lines 522–582)

`fetchPage` never throws: it resolves to
`{flights, hasMore, nextUrl}` (an empty page with `hasMore = false` on any
transport error). The upstream behaviour is therefore an oracle giving the
result of the i-th fetch of the invocation. `maxPages` comes from
`parseInt(queryParams.maxPages) || 200`; a negative value never enters the
loop, which coincides with `maxPages = 0` here. -/

/-- One `fetchPage` result. -/
structure PageResult where
  flights : List SchipholFlight
  hasMore : Bool
  nextUrl : Option String
  deriving Repr, DecidableEq

/-- The loop's observable outcome: `allFlights`, final `pageCount`,
`totalFlightsSeen`, the final `hasMore` flag, and the number of
`fetchPage` calls made. -/
structure PaginationOut where
  allFlights : List SchipholFlight
  pageCount : Nat
  totalFlightsSeen : Nat
  hasMore : Bool
  fetchCount : Nat
  deriving Repr, DecidableEq

/-- The `while (hasMore && pageCount < maxPages)` loop body: fetch a page;
break on an empty page; count and filter future flights; break after
`MAX_PAST_PAGES = 3` consecutive pages with no future flight (before the
totals are updated); accumulate; break when the page reports no next page
(`hasMore := false`) or when the page budget is reached
(`hasMore := morePages`); otherwise advance `pageCount` and continue. -/
def paginationGo (oracle : Nat → PageResult) (nowMs : Int) (maxPages : Nat)
    (pageCount fetchCount pastPages : Nat) (acc : List SchipholFlight)
    (seen : Nat) (hasMore : Bool) : PaginationOut :=
  if hLoop : hasMore = true ∧ pageCount < maxPages then
    let pr := oracle fetchCount
    if pr.flights.isEmpty then
      ⟨acc, pageCount, seen, hasMore, fetchCount + 1⟩
    else
      let futureFlights := pr.flights.filter (fun f => isFlightInFuture f nowMs)
      if futureFlights.isEmpty ∧ 3 ≤ pastPages + 1 then
        ⟨acc, pageCount, seen, hasMore, fetchCount + 1⟩
      else
        let pastPages' := if futureFlights.isEmpty then pastPages + 1 else 0
        let seen' := seen + pr.flights.length
        let acc' := acc ++ futureFlights
        if !pr.hasMore then
          ⟨acc', pageCount, seen', false, fetchCount + 1⟩
        else if hBudget : maxPages - 1 ≤ pageCount then
          ⟨acc', pageCount, seen', pr.hasMore, fetchCount + 1⟩
        else
          paginationGo oracle nowMs maxPages (pageCount + 1) (fetchCount + 1)
            pastPages' acc' seen' true
  else
    ⟨acc, pageCount, seen, hasMore, fetchCount⟩
termination_by maxPages - pageCount
decreasing_by omega

/-- The loop as entered by the handler: `pageCount = 0`,
`pastFlightPagesCount = 0`, empty accumulator, `hasMore = true`. -/
def paginationLoop (oracle : Nat → PageResult) (nowMs : Int)
    (maxPages : Nat) : PaginationOut :=
  paginationGo oracle nowMs maxPages 0 0 0 [] 0 true

/-! ## The flight response cache (`arrivals.js`, lines 41–47, 409–413 and
618–629) -/

/-- `FLIGHT_CACHE_DURATION = 15 * 60 * 1000`. -/
def FLIGHT_CACHE_DURATION : Nat := 15 * 60 * 1000

/-- A `flightDataCache` entry: `{ data, timestamp }`. The payload type is a
parameter; the source stores the untyped response object. -/
structure FlightCacheEntry (α : Type) where
  data : α
  timestamp : Nat
  deriving Repr, DecidableEq

/-- `isFlightCacheValid(cacheEntry)`: false on a missing entry or falsy
timestamp, else `(Date.now() - cacheEntry.timestamp) < FLIGHT_CACHE_DURATION`. -/
def isFlightCacheValid {α : Type} (cacheEntry : Option (FlightCacheEntry α))
    (now : Nat) : Bool :=
  match cacheEntry with
  | none => false
  | some e =>
    if e.timestamp == 0 then false
    else decide (now - e.timestamp < FLIGHT_CACHE_DURATION)

/-- `flightDataCache.set(cacheKey, { data, timestamp: Date.now() })`. -/
def flightCacheSet {α : Type} (m : List (String × FlightCacheEntry α))
    (key : String) (data : α) (now : Nat) :
    List (String × FlightCacheEntry α) :=
  jsMapSet m key { data := data, timestamp := now }

/-- The cleanup loop run right after every write: delete every entry that
fails `isFlightCacheValid`. -/
def flightCacheSweep {α : Type} (m : List (String × FlightCacheEntry α))
    (now : Nat) : List (String × FlightCacheEntry α) :=
  m.filter (fun p => isFlightCacheValid (some p.2) now)

/-! ## Concrete inputs used by the claim theorems -/

/-- A raw `KL123` flight sighted in the `landed` bucket. -/
def kl123Landed : RawFlight :=
  { flightIata := some "KL123", flightIcao := some "KLM123",
    codeshared := false,
    arrivalScheduled := some "2024-03-20T11:50:00+00:00",
    arrivalEstimated := none,
    airlineName := some "KLM", airlineIata := some "KL",
    airlineIcao := some "KLM",
    departureAirport := some "Oslo Gardermoen", departureIata := some "OSL",
    aircraftIata := some "73H", aircraftIcao := some "B738",
    arrivalTerminal := some "1", arrivalGate := some "C5",
    arrivalDelay := some 12, flightStatus := some "landed" }

/-- The same `KL123` flight sighted again in the `scheduled` bucket. -/
def kl123Scheduled : RawFlight :=
  { kl123Landed with arrivalDelay := none, flightStatus := some "scheduled" }

/-- A codeshare sighting of `KL123`. -/
def kl123Codeshare : RawFlight :=
  { kl123Landed with codeshared := true }

/-- Two OpenFlights `airports.dat` lines, each with a valid 3-letter IATA
code in the fifth comma-separated field. -/
def sampleCsv : String :=
  "507,\"London Heathrow Airport\",\"London\",\"United Kingdom\",\"LHR\",\"EGLL\"\n1638,\"Humberto Delgado Airport\",\"Lisbon\",\"Portugal\",\"LIS\",\"LPPT\""

/-- A resolver state with the call budget exhausted and a fresh, non-empty
airport cache that does not contain `"LIS"` (reachable after successful
primary lookups). -/
def exhaustedState : ResolverState :=
  { airportCache :=
      [("AMS", { city := "Amsterdam", country := "NL",
                 name := "Amsterdam Airport Schiphol",
                 source := some "aviationstack" })],
    lastCacheUpdate := some 1000, apiCallsCount := 90 }

/-- A resolver state with the call budget exhausted and an empty cache. -/
def emptyExhaustedState : ResolverState :=
  { airportCache := [], lastCacheUpdate := none, apiCallsCount := 90 }

/-! ## Map lemmas -/

theorem jsMapGet_isSome_eq_jsMapHas {α : Type} (m : List (String × α))
    (k : String) : (jsMapGet m k).isSome = jsMapHas m k := by
  induction m with
  | nil => rfl
  | cons p m ih =>
    by_cases hp : p.1 == k
    · simp [jsMapGet, jsMapHas, List.find?_cons_of_pos, hp]
    · simp only [jsMapGet, jsMapHas] at ih ⊢
      rw [List.find?_cons_of_neg _ (by simpa using hp), List.any_cons]
      simp [hp, ih]

theorem jsMapGet_jsMapSet_self {α : Type} (m : List (String × α))
    (k : String) (v : α) : jsMapGet (jsMapSet m k v) k = some v := by
  induction m with
  | nil => simp [jsMapSet, jsMapHas, jsMapGet]
  | cons p m ih =>
    cases hp : (p.1 == k) with
    | true =>
      have hhas : jsMapHas (p :: m) k = true := by
        simp only [jsMapHas, List.any_cons, hp, Bool.true_or]
      rw [show jsMapSet (p :: m) k v =
          (p :: m).map (fun q => if q.1 == k then (k, v) else q) by
        simp [jsMapSet, hhas]]
      rw [List.map_cons]
      simp only [hp, if_true]
      simp [jsMapGet, List.find?_cons_of_pos]
    | false =>
      cases hm : jsMapHas m k with
      | true =>
        have hm' : (m.any fun q => q.1 == k) = true := hm
        have hhas : jsMapHas (p :: m) k = true := by
          simp only [jsMapHas, List.any_cons, hm', Bool.or_true]
        have hset : jsMapSet m k v =
            m.map (fun q => if q.1 == k then (k, v) else q) := by
          simp [jsMapSet, hm]
        rw [show jsMapSet (p :: m) k v =
            (p :: m).map (fun q => if q.1 == k then (k, v) else q) by
          simp [jsMapSet, hhas]]
        rw [List.map_cons]
        simp only [hp, if_false]
        rw [jsMapGet, List.find?_cons_of_neg _ (by simpa using hp)]
        rw [hset] at ih
        exact ih
      | false =>
        have hm' : (m.any fun q => q.1 == k) = false := hm
        have hhas : jsMapHas (p :: m) k = false := by
          simp only [jsMapHas, List.any_cons, hp, hm', Bool.or_self]
        have hset : jsMapSet m k v = m ++ [(k, v)] := by
          simp [jsMapSet, hm]
        rw [show jsMapSet (p :: m) k v = (p :: m) ++ [(k, v)] by
          simp [jsMapSet, hhas]]
        rw [List.cons_append]
        rw [jsMapGet, List.find?_cons_of_neg _ (by simpa using hp)]
        rw [hset] at ih
        exact ih

theorem jsMapHas_jsMapSet_self {α : Type} (m : List (String × α))
    (k : String) (v : α) : jsMapHas (jsMapSet m k v) k = true := by
  rw [← jsMapGet_isSome_eq_jsMapHas, jsMapGet_jsMapSet_self]
  rfl

theorem jsMapHas_jsMapSet_of_has {α : Type} (m : List (String × α))
    (k k2 : String) (v : α) (h : jsMapHas m k = true) :
    jsMapHas (jsMapSet m k2 v) k = true := by
  unfold jsMapSet
  split
  · simp only [jsMapHas, List.any_map, List.any_eq_true] at h ⊢
    obtain ⟨q, hq, hqk⟩ := h
    have e1 : q.1 = k := by simpa using hqk
    refine ⟨q, hq, ?_⟩
    by_cases h2 : q.1 == k2
    · have e2 : q.1 = k2 := by simpa using h2
      have e3 : k2 = k := by rw [← e2, e1]
      simp [Function.comp, h2, e3, e1]
    · have h4 : q.1 ≠ k2 := by simpa using h2
      have h5 : k ≠ k2 := e1 ▸ h4
      simp [Function.comp, h2, e1, h4, h5]
  · simp only [jsMapHas, List.any_append, Bool.or_eq_true]
    exact Or.inl h

theorem mem_jsMapSet_value {α : Type} {m : List (String × α)} {k : String}
    {v : α} {q : String × α} (hq : q ∈ jsMapSet m k v) (hk : q.1 = k) :
    q.2 = v := by
  unfold jsMapSet at hq
  split at hq
  · obtain ⟨q0, hq0, rfl⟩ := List.mem_map.1 hq
    by_cases h0 : q0.1 == k
    · simp [h0]
    · exfalso
      apply h0
      simp only [h0, if_neg, Bool.false_eq_true, not_false_iff] at hk
      simp [hk]
  · rcases List.mem_append.1 hq with hm | hone
    · rename_i hhas
      exfalso
      apply hhas
      simp only [jsMapHas, List.any_eq_true]
      exact ⟨q, hm, by simp [hk]⟩
    · simp only [List.mem_singleton] at hone
      rw [hone]

theorem mem_jsMapSet_of_key_ne {α : Type} {m : List (String × α)}
    {k2 : String} {v : α} {q : String × α} (hq : q ∈ jsMapSet m k2 v)
    (hk : q.1 ≠ k2) : q ∈ m := by
  unfold jsMapSet at hq
  split at hq
  · obtain ⟨q0, hq0, rfl⟩ := List.mem_map.1 hq
    by_cases h0 : q0.1 == k2
    · exfalso
      apply hk
      simp [h0]
    · simpa [h0] using hq0
  · rcases List.mem_append.1 hq with hm | hone
    · exact hm
    · exfalso
      apply hk
      simp only [List.mem_singleton] at hone
      rw [hone]

theorem jsMapGet_filter_none {α : Type} {m : List (String × α)}
    {pred : String × α → Bool} {k : String}
    (h : ∀ q ∈ m, q.1 = k → pred q = false) :
    jsMapGet (m.filter pred) k = none := by
  unfold jsMapGet
  have : (m.filter pred).find? (fun p => p.1 == k) = none := by
    rw [List.find?_eq_none]
    intro x hx hxk
    obtain ⟨hxm, hxp⟩ := List.mem_filter.1 hx
    have : pred x = false := h x hxm (by simpa using hxk)
    rw [this] at hxp
    exact Bool.false_ne_true hxp
  rw [this]
  rfl

/-! ## Claim C1 -/

/-- C1 counterexample: the claim asserts every 500 response body contains
an empty `flights` array, including the missing-credentials case; but the
missing-credentials 500 of `arrivals.js` is
`{ message: "Server configuration error." }` and that of
`arrivals-cdg.js` is `{ error: "No API key configured" }`, neither of
which has a `flights` field. -/
theorem claim_C1_counterexample :
    (arrivalsHandlerResponse none none (HandlerOutcome.err "boom")).statusCode
        = 500 ∧
    hasEmptyFlightsArray
        (arrivalsHandlerResponse none none (HandlerOutcome.err "boom")).body
        = false ∧
    (cdgHandlerResponse none none (HandlerOutcome.err "boom")).statusCode
        = 500 ∧
    hasEmptyFlightsArray
        (cdgHandlerResponse none none (HandlerOutcome.err "boom")).body
        = false :=
  ⟨rfl, rfl, rfl, rfl⟩

/-- C1 (amended): when the credentials are present, any failure of the
guarded handler body is caught and produces a 500 whose JSON body contains
an empty `flights` array, in both handler variants; the
missing-credentials 500s are well-formed JSON but carry no `flights`
field. -/
theorem claim_C1_amended (appId appKey apiKey msg : String)
    (hId : appId ≠ "") (hKey : appKey ≠ "") (hApi : apiKey ≠ "") :
    ((arrivalsHandlerResponse (some appId) (some appKey)
        (HandlerOutcome.err msg)).statusCode = 500 ∧
      hasEmptyFlightsArray (arrivalsHandlerResponse (some appId)
        (some appKey) (HandlerOutcome.err msg)).body = true) ∧
    ((cdgHandlerResponse none (some apiKey)
        (HandlerOutcome.err msg)).statusCode = 500 ∧
      hasEmptyFlightsArray (cdgHandlerResponse none (some apiKey)
        (HandlerOutcome.err msg)).body = true) := by
  have h1 : truthyStr (some appId) = true := by
    simp [truthyStr, bne_iff_ne, hId]
  have h2 : truthyStr (some appKey) = true := by
    simp [truthyStr, bne_iff_ne, hKey]
  have h3 : truthyStr (some apiKey) = true := by
    simp [truthyStr, bne_iff_ne, hApi]
  constructor
  · have : arrivalsHandlerResponse (some appId) (some appKey)
        (HandlerOutcome.err msg) =
        { statusCode := 500,
          body := Json.obj
            [("message", Json.str "Internal Server Error."),
             ("error", Json.str msg),
             ("flights", Json.arr [])] } := by
      unfold arrivalsHandlerResponse
      rw [h1, h2]
      rfl
    rw [this]
    exact ⟨rfl, rfl⟩
  · have : cdgHandlerResponse none (some apiKey) (HandlerOutcome.err msg) =
        { statusCode := 500,
          body := Json.obj
            [("error", Json.str msg), ("flights", Json.arr [])] } := by
      unfold cdgHandlerResponse
      rw [h3]
      rfl
    rw [this]
    exact ⟨rfl, rfl⟩

/-- Witness for `claim_C1_amended` at concrete credentials. -/
theorem claim_C1_amended_witness :
    ((arrivalsHandlerResponse (some "id") (some "key")
        (HandlerOutcome.err "boom")).statusCode = 500 ∧
      hasEmptyFlightsArray (arrivalsHandlerResponse (some "id")
        (some "key") (HandlerOutcome.err "boom")).body = true) ∧
    ((cdgHandlerResponse none (some "api")
        (HandlerOutcome.err "boom")).statusCode = 500 ∧
      hasEmptyFlightsArray (cdgHandlerResponse none (some "api")
        (HandlerOutcome.err "boom")).body = true) :=
  claim_C1_amended "id" "key" "api" "boom" (by decide) (by decide)
    (by decide)

/-! ## Claim C3 -/

/-- C3 counterexample: on the one-character code `"N"` the claim expects an
empty flag string, but `code.charCodeAt(1)` is `NaN` and
`String.fromCodePoint` throws a `RangeError` (modelled by `none`). -/
theorem claim_C3_counterexample :
    getFlagEmoji (some [78]) = none ∧
    getFlagEmoji (some [78]) ≠ some [] := by
  constructor
  · rfl
  · intro h
    exact Option.noConfusion h

/-- C3 (amended): `getFlagEmoji("NL")` is the two-codepoint regional
indicator string for N and L; an absent or empty country code yields the
empty string; but a one-character code makes `String.fromCodePoint` throw
instead of yielding an empty flag string. -/
theorem claim_C3_amended :
    getFlagEmoji (some [78, 76]) = some [0x1F1F3, 0x1F1F1] ∧
    getFlagEmoji none = some [] ∧
    getFlagEmoji (some []) = some [] ∧
    getFlagEmoji (some [78]) = none := by
  refine ⟨?_, rfl, rfl, rfl⟩
  rfl

/-! ## Claim C4 -/

/-- C4: with the `KL123` pair seen once as landed and once as scheduled in
the combined landed-first order, the merged list retains exactly one
record for that flight code and its status is `"landed"`. -/
theorem claim_C4 :
    ((cdgFlights (combineBuckets [kl123Landed] [] [kl123Scheduled])).countP
      (fun r => r.flightName == "KL123")) = 1 ∧
    ((cdgFlights (combineBuckets [kl123Landed] [] [kl123Scheduled])).filter
      (fun r => r.flightName == "KL123")).all
      (fun r => r.status == "landed") = true := by
  decide

/-! ## Claim C6 -/

/-- C6: a write followed by a read of the same key returns the stored
payload unchanged, and is reported valid within the 15-minute TTL; once
the TTL has elapsed the entry fails `isFlightCacheValid` and the sweep run
after the next write removes it. -/
theorem claim_C6 {α : Type} (m : List (String × FlightCacheEntry α))
    (k k2 : String) (d d2 : α) (t tFresh tStale : Nat)
    (ht : 0 < t) (hk : k2 ≠ k)
    (hFresh : tFresh - t < FLIGHT_CACHE_DURATION)
    (hStale : FLIGHT_CACHE_DURATION ≤ tStale - t) :
    jsMapGet (flightCacheSet m k d t) k = some { data := d, timestamp := t } ∧
    isFlightCacheValid (jsMapGet (flightCacheSet m k d t) k) tFresh = true ∧
    isFlightCacheValid (jsMapGet (flightCacheSet m k d t) k) tStale = false ∧
    jsMapGet (flightCacheSweep
      (flightCacheSet (flightCacheSet m k d t) k2 d2 tStale) tStale) k
      = none := by
  have hget : jsMapGet (flightCacheSet m k d t) k =
      some { data := d, timestamp := t } :=
    jsMapGet_jsMapSet_self m k { data := d, timestamp := t }
  have htne : (t == 0) = false := by
    simp only [beq_eq_false_iff_ne, ne_eq]
    omega
  refine ⟨hget, ?_, ?_, ?_⟩
  · rw [hget]
    simp [isFlightCacheValid, htne, hFresh]
  · rw [hget]
    simp [isFlightCacheValid, htne]
    omega
  · apply jsMapGet_filter_none
    intro q hq hqk
    have hq1 : q ∈ flightCacheSet m k d t :=
      mem_jsMapSet_of_key_ne hq (by rw [hqk]; exact fun h => hk h.symm)
    have hq2 : q.2 = { data := d, timestamp := t } :=
      mem_jsMapSet_value hq1 hqk
    rw [hq2]
    simp [isFlightCacheValid, htne]
    omega

/-- Witness for `claim_C6` at a concrete key, payload and timestamps. -/
theorem claim_C6_witness :
    jsMapGet (flightCacheSet ([] : List (String × FlightCacheEntry Nat))
        "2024-03-20_morning" 7 1000) "2024-03-20_morning"
      = some { data := 7, timestamp := 1000 } ∧
    isFlightCacheValid (jsMapGet (flightCacheSet
        ([] : List (String × FlightCacheEntry Nat)) "2024-03-20_morning" 7
        1000) "2024-03-20_morning") 900999 = true ∧
    isFlightCacheValid (jsMapGet (flightCacheSet
        ([] : List (String × FlightCacheEntry Nat)) "2024-03-20_morning" 7
        1000) "2024-03-20_morning") 901000 = false ∧
    jsMapGet (flightCacheSweep (flightCacheSet (flightCacheSet
        ([] : List (String × FlightCacheEntry Nat)) "2024-03-20_morning" 7
        1000) "2024-03-21_evening" 8 901000) 901000) "2024-03-20_morning"
      = none :=
  claim_C6 [] "2024-03-20_morning" "2024-03-21_evening" 7 8 1000 900999
    901000 (by decide) (by decide) (by decide) (by decide)

/-! ## Dedup loop lemmas -/

theorem dedupGo_sub :
    ∀ (l : List RawFlight) (seen : List DedupKey) (n : Nat),
      ∀ r ∈ (dedupGo l seen n).1, r ∈ l := by
  intro l
  induction l with
  | nil => intro seen n r hr; simp [dedupGo] at hr
  | cons f l ih =>
    intro seen n r hr
    rcases hkey : flightKeyStr f with _ | s
    all_goals simp only [dedupGo, hkey] at hr
    all_goals split at hr
    · exact List.mem_cons_of_mem f (ih _ _ r hr)
    · split at hr
      · exact List.mem_cons_of_mem f (ih _ _ r hr)
      · rcases List.mem_cons.1 hr with h | h
        · rw [h]; exact List.mem_cons_self f l
        · exact List.mem_cons_of_mem f (ih _ _ r h)
    · exact List.mem_cons_of_mem f (ih _ _ r hr)
    · split at hr
      · exact List.mem_cons_of_mem f (ih _ _ r hr)
      · rcases List.mem_cons.1 hr with h | h
        · rw [h]; exact List.mem_cons_self f l
        · exact List.mem_cons_of_mem f (ih _ _ r h)

theorem dedupGo_not_codeshared :
    ∀ (l : List RawFlight) (seen : List DedupKey) (n : Nat),
      ((dedupGo l seen n).1).all (fun f => !f.codeshared) = true := by
  intro l
  induction l with
  | nil => intro seen n; rfl
  | cons f l ih =>
    intro seen n
    rcases hkey : flightKeyStr f with _ | s
    all_goals simp only [dedupGo, hkey]
    all_goals split
    · exact ih _ _
    · split
      · exact ih _ _
      · rename_i hcs
        simp only [List.all_cons, Bool.and_eq_true]
        exact ⟨by simp [hcs], ih _ _⟩
    · exact ih _ _
    · split
      · exact ih _ _
      · rename_i hcs
        simp only [List.all_cons, Bool.and_eq_true]
        exact ⟨by simp [hcs], ih _ _⟩

theorem dedupGo_avoid (K : String) :
    ∀ (l : List RawFlight) (seen : List DedupKey) (n : Nat),
      DedupKey.str K ∈ seen →
      ∀ r ∈ (dedupGo l seen n).1, flightKeyStr r ≠ some K := by
  intro l
  induction l with
  | nil => intro seen n _ r hr; simp [dedupGo] at hr
  | cons f l ih =>
    intro seen n hseen r hr
    rcases hkey : flightKeyStr f with _ | s
    all_goals simp only [dedupGo, hkey] at hr
    · split at hr
      · exact ih _ _ hseen r hr
      · split at hr
        · exact ih _ _ (List.mem_cons_of_mem _ hseen) r hr
        · rcases List.mem_cons.1 hr with h | h
          · rw [h, hkey]; exact fun hcon => Option.noConfusion hcon
          · exact ih _ _ (List.mem_cons_of_mem _ hseen) r h
    · split at hr
      · exact ih _ _ hseen r hr
      · split at hr
        · exact ih _ _ (List.mem_cons_of_mem _ hseen) r hr
        · rcases List.mem_cons.1 hr with h | h
          · rename_i hnotin _
            rw [h, hkey]
            intro hcon
            apply hnotin
            have : s = K := by injection hcon
            rw [this]
            exact hseen
          · exact ih _ _ (List.mem_cons_of_mem _ hseen) r h

theorem dedupGo_seen_new (K : String) :
    ∀ (l : List RawFlight) (seen : List DedupKey) (n : Nat),
      DedupKey.str K ∉ seen → (∀ f ∈ l, flightKeyStr f ≠ some K) →
      DedupKey.str K ∉ (dedupGo l seen n).2.1 := by
  intro l
  induction l with
  | nil => intro seen n hseen _; simpa [dedupGo] using hseen
  | cons f l ih =>
    intro seen n hseen hall
    have hne : flightKeyStr f ≠ some K := hall f (List.mem_cons_self f l)
    have hrest : ∀ g ∈ l, flightKeyStr g ≠ some K :=
      fun g hg => hall g (List.mem_cons_of_mem f hg)
    rcases hkey : flightKeyStr f with _ | s
    all_goals simp only [dedupGo, hkey]
    · split
      · exact ih _ _ hseen hrest
      · have hcons : DedupKey.str K ∉ DedupKey.fresh n :: seen := by
          intro hmem
          rcases List.mem_cons.1 hmem with h | h
          · exact DedupKey.noConfusion h
          · exact hseen h
        split
        · exact ih _ _ hcons hrest
        · exact ih _ _ hcons hrest
    · have hsk : s ≠ K := by
        intro h
        apply hne
        rw [hkey, h]
      split
      · exact ih _ _ hseen hrest
      · have hcons : DedupKey.str K ∉ DedupKey.str s :: seen := by
          intro hmem
          rcases List.mem_cons.1 hmem with h | h
          · exact hsk (by injection h.symm)
          · exact hseen h
        split
        · exact ih _ _ hcons hrest
        · exact ih _ _ hcons hrest

theorem dedupGo_append :
    ∀ (l1 l2 : List RawFlight) (seen : List DedupKey) (n : Nat),
      dedupGo (l1 ++ l2) seen n =
        ((dedupGo l1 seen n).1 ++
          (dedupGo l2 (dedupGo l1 seen n).2.1 (dedupGo l1 seen n).2.2).1,
         (dedupGo l2 (dedupGo l1 seen n).2.1 (dedupGo l1 seen n).2.2).2) := by
  intro l1
  induction l1 with
  | nil => intro l2 seen n; simp [dedupGo]
  | cons f l1 ih =>
    intro l2 seen n
    rw [List.cons_append]
    rcases hkey : flightKeyStr f with _ | s
    all_goals simp only [dedupGo, hkey]
    all_goals split
    · exact ih _ _ _
    · split
      · exact ih _ _ _
      · rw [ih]
        rfl
    · exact ih _ _ _
    · split
      · exact ih _ _ _
      · rw [ih]
        rfl

theorem flightKeyStr_ne_empty (f : RawFlight) (K : String)
    (h : flightKeyStr f = some K) : K ≠ "" := by
  unfold flightKeyStr at h
  split at h
  · rename_i ht
    intro hk
    rw [hk] at h
    rw [h] at ht
    simp [truthyStr] at ht
  · split at h
    · rename_i ht
      intro hk
      rw [hk] at h
      rw [h] at ht
      simp [truthyStr] at ht
    · exact Option.noConfusion h

theorem normalizeCdgFlight_flightName (f : RawFlight) :
    (normalizeCdgFlight f).flightName = (flightKeyStr f).getD "" := by
  show strOrEmpty (jsOrStr f.flightIata f.flightIcao) = (flightKeyStr f).getD ""
  unfold strOrEmpty jsOrStr flightKeyStr
  cases hi : truthyStr f.flightIata with
  | true => simp [hi]
  | false =>
    cases hc : truthyStr f.flightIcao with
    | true => simp [hi, hc]
    | false =>
      simp [hi, hc]

/-! ## Claim C8 -/

/-- C8: every record of the multi-status variant's output list derives from
a raw flight the dedup loop selected, and no selected flight is a
codeshare — codeshare flights are excluded entirely. -/
theorem claim_C8 (landed active scheduled : List RawFlight) :
    ((dedupSelect (combineBuckets landed active scheduled)).all
      (fun f => !f.codeshared)) = true ∧
    cdgFlights (combineBuckets landed active scheduled) =
      (dedupSelect (combineBuckets landed active scheduled)).map
        normalizeCdgFlight :=
  ⟨dedupGo_not_codeshared _ [] 0, rfl⟩

/-! ## Claim C10 -/

/-- C10: the dedup key is recorded as seen before the codeshare check:
when a codeshare sighting of code `K` is the first record carrying key `K`
and a genuine (non-codeshare) sighting of `K` follows, the output contains
no record with flight code `K` at all. -/
theorem claim_C10 (p rest : List RawFlight) (c : RawFlight) (K : String)
    (hCs : c.codeshared = true) (hKey : flightKeyStr c = some K)
    (hBefore : ∀ f ∈ p, flightKeyStr f ≠ some K)
    (_hAfter : ∃ g ∈ rest, g.codeshared = false ∧ flightKeyStr g = some K) :
    (cdgFlights (p ++ c :: rest)).all (fun r => r.flightName != K) = true := by
  have hKne : K ≠ "" := flightKeyStr_ne_empty c K hKey
  have core : ∀ r ∈ dedupSelect (p ++ c :: rest), flightKeyStr r ≠ some K := by
    unfold dedupSelect
    rw [dedupGo_append]
    intro r hr
    rcases List.mem_append.1 hr with h1 | h2
    · exact hBefore r (dedupGo_sub p [] 0 r h1)
    · have hnotin : DedupKey.str K ∉ (dedupGo p [] 0).2.1 :=
        dedupGo_seen_new K p [] 0 (by simp) hBefore
      have hstep :
          dedupGo (c :: rest) (dedupGo p [] 0).2.1 (dedupGo p [] 0).2.2 =
            dedupGo rest (DedupKey.str K :: (dedupGo p [] 0).2.1)
              (dedupGo p [] 0).2.2 := by
        simp only [dedupGo, hKey]
        rw [if_neg hnotin]
        simp [hCs]
      rw [hstep] at h2
      exact dedupGo_avoid K rest _ _ (List.mem_cons_self _ _) r h2
  rw [List.all_eq_true]
  intro r hr
  obtain ⟨f, hf, rfl⟩ := List.mem_map.1 hr
  have hfk := core f hf
  rw [normalizeCdgFlight_flightName]
  rcases hval : flightKeyStr f with _ | s
  · simpa using fun h => hKne h.symm
  · have : s ≠ K := by
      intro h
      apply hfk
      rw [hval, h]
    simpa using this

/-- Witness for `claim_C10`: a codeshare `KL123` record followed by a
genuine `KL123` record yields an output with no `KL123` record. -/
theorem claim_C10_witness :
    (cdgFlights [kl123Codeshare, kl123Scheduled]).all
      (fun r => r.flightName != "KL123") = true :=
  claim_C10 [] [kl123Scheduled] kl123Codeshare "KL123" rfl rfl
    (by simp)
    ⟨kl123Scheduled, by simp, rfl, rfl⟩

/-! ## Resolver lemmas, claims C2 and C7 -/

theorem fetchOpenFlightsData_apiCallsCount (st : ResolverState) (now : Nat)
    (fetched : Option String) :
    (fetchOpenFlightsData st now fetched).apiCallsCount = st.apiCallsCount := by
  unfold fetchOpenFlightsData
  split
  · cases fetched <;> rfl
  · rfl

theorem jsMapHas_foldl_openFlights :
    ∀ (l : List OpenFlightsRow) (m : List (String × AirportMeta))
      (k : String),
      (jsMapHas m k = true ∨ ∃ a ∈ l, a.iata = k) →
      jsMapHas
        (l.foldl (fun c a => jsMapSet c a.iata (openFlightsMeta a)) m) k
        = true := by
  intro l
  induction l with
  | nil =>
    intro m k h
    rcases h with h | ⟨a, ha, _⟩
    · exact h
    · simp at ha
  | cons a l ih =>
    intro m k h
    rw [List.foldl_cons]
    apply ih
    rcases h with h | ⟨b, hb, hbk⟩
    · exact Or.inl (jsMapHas_jsMapSet_of_has _ _ _ _ h)
    · rcases List.mem_cons.1 hb with rfl | hbl
      · exact Or.inl (hbk ▸ jsMapHas_jsMapSet_self m b.iata (openFlightsMeta b))
      · exact Or.inr ⟨b, hbl, hbk⟩

/-- C2 counterexample: with the call budget exhausted and a fresh,
non-empty airport cache that lacks `"LIS"`, resolving `"LIS"` returns
`undefined` even though `"LIS"` appears with a valid 3-letter IATA field in
the (successfully fetched) fallback dataset: the bulk load is skipped
because the cache is neither empty nor expired. -/
theorem claim_C2_counterexample :
    MAX_API_CALLS ≤ exhaustedState.apiCallsCount ∧
    ((parseOpenFlightsData sampleCsv).any (fun a => a.iata == "LIS"))
      = true ∧
    (fetchAirportData exhaustedState 1000 ApiOutcome.throw (some sampleCsv)
      "LIS").1 = none := by
  refine ⟨by decide, by decide, by decide⟩

/-- C2 (amended): with the budget exhausted, resolving a code that appears
with a valid 3-letter IATA field in the successfully fetched fallback
dataset returns non-absent metadata provided the bulk load actually runs —
that is, the metadata cache is empty, never stamped, or expired. -/
theorem claim_C2_amended (st : ResolverState) (now : Nat) (api : ApiOutcome)
    (csv : String) (code : String)
    (hBudget : MAX_API_CALLS ≤ st.apiCallsCount)
    (hDue : openFlightsRefreshDue st now = true)
    (hCode : ∃ a ∈ parseOpenFlightsData csv, a.iata = code) :
    ((fetchAirportData st now api (some csv) code).1).isSome = true := by
  have hOpen : fetchOpenFlightsData st now (some csv) =
      { st with
        airportCache := (parseOpenFlightsData csv).foldl
          (fun c a => jsMapSet c a.iata (openFlightsMeta a)) st.airportCache,
        lastCacheUpdate := some now } := by
    unfold fetchOpenFlightsData
    rw [hDue]
    rfl
  unfold fetchAirportData
  cases hc : (jsMapHas st.airportCache code &&
      (lcuTruthy st.lastCacheUpdate &&
        decide (now - st.lastCacheUpdate.getD 0 < CACHE_DURATION))) with
  | true =>
    simp only [hc, if_true]
    rw [jsMapGet_isSome_eq_jsMapHas]
    have hc2 := hc
    simp only [Bool.and_eq_true] at hc2
    exact hc2.1
  | false =>
    simp only [hc, Bool.false_eq_true, if_false]
    rw [if_pos hBudget]
    show (jsMapGet (fetchOpenFlightsData st now (some csv)).airportCache
      code).isSome = true
    rw [hOpen]
    rw [jsMapGet_isSome_eq_jsMapHas]
    exact jsMapHas_foldl_openFlights _ _ _ (Or.inr hCode)

/-- Witness for `claim_C2_amended` at the empty exhausted state. -/
theorem claim_C2_amended_witness :
    ((fetchAirportData emptyExhaustedState 1000 ApiOutcome.throw
      (some sampleCsv) "LIS").1).isSome = true :=
  claim_C2_amended emptyExhaustedState 1000 ApiOutcome.throw sampleCsv "LIS"
    (by decide) (by decide) (by decide)

theorem fetchAirportData_apiCallsCount_le (st : ResolverState) (now : Nat)
    (api : ApiOutcome) (fb : Option String) (code : String)
    (h : st.apiCallsCount ≤ MAX_API_CALLS) :
    ((fetchAirportData st now api fb code).2).apiCallsCount
      ≤ MAX_API_CALLS := by
  unfold fetchAirportData
  split
  · exact h
  · split
    · rw [fetchOpenFlightsData_apiCallsCount]
      exact h
    · rename_i h2
      cases api with
      | throw =>
        rw [fetchOpenFlightsData_apiCallsCount]
        exact h
      | noData =>
        simp only []
        omega
      | success city country name =>
        simp only []
        omega

theorem foldlFetch_apiCallsCount_le (now : Nat) (api : Nat → ApiOutcome)
    (fb : Option String) :
    ∀ (codes : List String) (st : ResolverState) (idx : Nat),
      st.apiCallsCount ≤ MAX_API_CALLS →
      ((codes.foldl
        (fun (acc : ResolverState × Nat) code =>
          ((fetchAirportData acc.1 now (api acc.2) fb code).2, acc.2 + 1))
        (st, idx)).1).apiCallsCount ≤ MAX_API_CALLS := by
  intro codes
  induction codes with
  | nil => intro st idx h; exact h
  | cons code codes ih =>
    intro st idx h
    rw [List.foldl_cons]
    exact ih _ _ (fetchAirportData_apiCallsCount_le st now (api idx) fb code h)

/-- C7: the batch resolver preserves `apiCallsCount ≤ MAX_API_CALLS`
(90) regardless of how many uncached codes the input holds and of the
outcomes of the primary calls. -/
theorem claim_C7 (iataCodes : List String) (st : ResolverState) (now : Nat)
    (api : Nat → ApiOutcome) (fallbackFetch : Option String)
    (h : st.apiCallsCount ≤ MAX_API_CALLS) :
    (batchFetchAirportData iataCodes st now api fallbackFetch).apiCallsCount
      ≤ MAX_API_CALLS := by
  unfold batchFetchAirportData
  dsimp only
  split
  · exact h
  · split
    · rw [fetchOpenFlightsData_apiCallsCount]
      exact h
    · exact foldlFetch_apiCallsCount_le now api fallbackFetch _ st 0 h

/-- Witness for `claim_C7` on a two-code batch from a fresh state. -/
theorem claim_C7_witness :
    (batchFetchAirportData ["LIS", "LHR"]
      { airportCache := [], lastCacheUpdate := none, apiCallsCount := 0 }
      1000 (fun _ => ApiOutcome.throw) none).apiCallsCount
      ≤ MAX_API_CALLS :=
  claim_C7 ["LIS", "LHR"]
    { airportCache := [], lastCacheUpdate := none, apiCallsCount := 0 }
    1000 (fun _ => ApiOutcome.throw) none (by decide)

/-! ## Claim C9 -/

/-- C9: for a flight whose `scheduleDate`/`scheduleTime` parse to an
instant, `isFlightInFuture` is true exactly when that instant is at or
after `now` minus the 15-minute grace buffer; in particular it accepts a
flight scheduled 10 minutes before now (11:50 against a 12:00 now) and
rejects one scheduled 20 minutes before now (11:40). -/
theorem claim_C9 :
    (∀ (flight : SchipholFlight) (d t : String) (ms now : Int),
        flight.scheduleDate = some d → flight.scheduleTime = some t →
        parseDateTime d t = some ms →
        (isFlightInFuture flight now = true ↔ now - 15 * 60 * 1000 ≤ ms)) ∧
    isFlightInFuture ⟨some "2024-03-20", some "11:50"⟩ 1710936000000
      = true ∧
    isFlightInFuture ⟨some "2024-03-20", some "11:40"⟩ 1710936000000
      = false := by
  refine ⟨?_, by decide, by decide⟩
  intro flight d t ms now hd ht hp
  have hdne : d ≠ "" := by
    intro h
    rw [h] at hp
    unfold parseDateTime at hp
    rw [show parseYmd "" = none from rfl] at hp
    cases parseHms t <;> simp at hp
  have htne : t ≠ "" := by
    intro h
    rw [h] at hp
    unfold parseDateTime at hp
    rw [show parseHms "" = none from rfl] at hp
    cases parseYmd d <;> simp at hp
  have h1 : truthyStr (some d) = true := by simp [truthyStr, hdne]
  have h2 : truthyStr (some t) = true := by simp [truthyStr, htne]
  unfold isFlightInFuture
  rw [hd, ht, h1, h2]
  simp only [Bool.not_true, Bool.or_self, Bool.false_eq_true, if_false]
  rw [show (some d).getD "" = d from rfl, show (some t).getD "" = t from rfl]
  rw [hp]
  simp

/-- Witness for the general part of `claim_C9` at a flight scheduled
exactly 15 minutes before now. -/
theorem claim_C9_witness :
    isFlightInFuture ⟨some "2024-03-20", some "11:45"⟩ 1710936000000 = true
      ↔ (1710936000000 : Int) - 15 * 60 * 1000 ≤ 1710935100000 :=
  claim_C9.1 ⟨some "2024-03-20", some "11:45"⟩ "2024-03-20" "11:45"
    1710935100000 1710936000000 rfl rfl (by decide)

/-! ## Claim C5 -/

theorem paginationGo_fetchCount_le (oracle : Nat → PageResult)
    (nowMs : Int) (maxPages : Nat) :
    ∀ (fuel pageCount fetchCount pastPages : Nat)
      (acc : List SchipholFlight) (seen : Nat) (hasMore : Bool),
      maxPages - pageCount ≤ fuel →
      (paginationGo oracle nowMs maxPages pageCount fetchCount pastPages acc
        seen hasMore).fetchCount ≤ fetchCount + (maxPages - pageCount) := by
  intro fuel
  induction fuel with
  | zero =>
    intro pageCount fetchCount pastPages acc seen hasMore hle
    have hguard : ¬(hasMore = true ∧ pageCount < maxPages) := by
      rintro ⟨_, hlt⟩
      omega
    rw [paginationGo, dif_neg hguard]
    dsimp only
    omega
  | succ n ih =>
    intro pageCount fetchCount pastPages acc seen hasMore hle
    rw [paginationGo]
    by_cases hguard : hasMore = true ∧ pageCount < maxPages
    · rw [dif_pos hguard]
      have hlt : pageCount < maxPages := hguard.2
      dsimp only
      split
      · dsimp only
        omega
      · split
        · dsimp only
          omega
        · split
          · dsimp only
            omega
          · split
            · dsimp only
              omega
            · rename_i hnb
              have hrec := ih (pageCount + 1) (fetchCount + 1)
                (if ((oracle fetchCount).flights.filter
                  (fun f => isFlightInFuture f nowMs)).isEmpty
                 then pastPages + 1 else 0)
                (acc ++ (oracle fetchCount).flights.filter
                  (fun f => isFlightInFuture f nowMs))
                (seen + (oracle fetchCount).flights.length) true (by omega)
              omega
    · rw [dif_neg hguard]
      dsimp only
      omega

/-- C5: whatever the upstream behaviour — even a feed that reports
`hasMore = true` with a next page on every fetch — the pagination loop
performs at most `maxPages` page fetches (and terminates, the loop being a
total function). -/
theorem claim_C5 (oracle : Nat → PageResult) (nowMs : Int) (maxPages : Nat) :
    (paginationLoop oracle nowMs maxPages).fetchCount ≤ maxPages := by
  have h := paginationGo_fetchCount_le oracle nowMs maxPages maxPages 0 0 0
    [] 0 true (by omega)
  simpa [paginationLoop] using h

end AmsFlightVibe
